import Mathlib

/-!
Verification of the JavSubtitle scraper (subtitle_scraper.py / subtitlecat.py).

Strings are modelled as `List Char`; Python file paths, HTML documents and
HTTP responses are modelled as explicit data passed to the embedded
functions.  Each definition below is a direct translation of the Python
function of the same name.
-/

set_option autoImplicit false

/-- Python `needle in hay` substring test on strings. -/
def strContains (hay needle : List Char) : Bool :=
  match hay with
  | [] => needle.isEmpty
  | _ :: t => needle.isPrefixOf hay || strContains t needle

/-- Python `s.lower()` (ASCII; the data handled by the scraper is ASCII). -/
def lowerStr (s : List Char) : List Char :=
  s.map Char.toLower

/-- Python `s.strip()` (whitespace at both ends removed). -/
def stripStr (s : List Char) : List Char :=
  ((s.dropWhile Char.isWhitespace).reverse.dropWhile Char.isWhitespace).reverse

/-- Python `s.startswith(p)`. -/
def startsWith (s p : List Char) : Bool :=
  p.isPrefixOf s

/-- POSIX `os.path.basename`: the part after the last `/`. -/
def basename (p : List Char) : List Char :=
  (p.reverse.takeWhile (fun c => !(c = '/' : Bool))).reverse

/-- Root part of POSIX `os.path.splitext` for a separator-free name (the
source always applies it after `os.path.basename` or to a directory-listing
entry): split at the last dot unless every character before it is a dot. -/
def splitextRoot (b : List Char) : List Char :=
  if ('.' : Char) ∈ b then
    let i := b.length - 1 - (b.reverse.indexOf '.')
    if (b.take i).all (fun c => (c = '.' : Bool)) then b else b.take i
  else b

/-- Extension part of `os.path.splitext` for a separator-free name. -/
def splitextExt (b : List Char) : List Char :=
  b.drop (splitextRoot b).length

/-- The regex `^([A-Za-z]+-\d+)` of `extract_keyword`: one or more ASCII
letters, a hyphen, one or more digits, anchored at the start; returns the
captured prefix. -/
def matchIdPat (s : List Char) : Option (List Char) :=
  let letters := s.takeWhile Char.isAlpha
  if letters.isEmpty then none
  else
    match s.drop letters.length with
    | '-' :: rest =>
      let digits := rest.takeWhile Char.isDigit
      if digits.isEmpty then none
      else some (letters ++ '-' :: digits)
    | _ => none

/-- `extract_keyword` (subtitle_scraper.py, lines 22-47): try the strict
pattern on the raw input; on failure retry on the path- and
extension-stripped base name; `none` when neither matches. -/
def extract_keyword (input_arg : List Char) : Option (List Char) :=
  match matchIdPat input_arg with
  | some kw => some kw
  | none => matchIdPat (splitextRoot (basename input_arg))

section ExtractKeyword

lemma takeWhile_append_all {p : Char → Bool} (l r : List Char)
    (hl : ∀ c ∈ l, p c = true) (hr : ∀ c, r.head? = some c → p c = false) :
    (l ++ r).takeWhile p = l := by
  induction l with
  | nil =>
    cases r with
    | nil => rfl
    | cons c r' => simp [List.takeWhile_cons, hr c rfl]
  | cons a l ih =>
    have ha : p a = true := hl a (List.mem_cons_self a l)
    have hstep : ((a :: l) ++ r).takeWhile p = a :: (l ++ r).takeWhile p := by
      simp [List.takeWhile_cons, ha]
    rw [hstep, ih (fun c hc => hl c (List.mem_cons_of_mem a hc))]

lemma matchIdPat_decomp (letters digits rest : List Char)
    (hl0 : letters ≠ []) (hl : ∀ c ∈ letters, c.isAlpha = true)
    (hd0 : digits ≠ []) (hd : ∀ c ∈ digits, c.isDigit = true)
    (hr : ∀ c, rest.head? = some c → c.isDigit = false) :
    matchIdPat (letters ++ '-' :: (digits ++ rest)) = some (letters ++ '-' :: digits) := by
  have htw : (letters ++ '-' :: (digits ++ rest)).takeWhile Char.isAlpha = letters := by
    apply takeWhile_append_all letters ('-' :: (digits ++ rest)) hl
    intro c hc
    simp only [List.head?_cons, Option.some.injEq] at hc
    subst hc
    decide
  have hdrop : (letters ++ '-' :: (digits ++ rest)).drop letters.length
      = '-' :: (digits ++ rest) := List.drop_left letters _
  have hdw : (digits ++ rest).takeWhile Char.isDigit = digits :=
    takeWhile_append_all digits rest hd (fun c hc => hr c hc)
  unfold matchIdPat
  simp only [htw, hdrop, List.isEmpty_eq_true, hl0, if_false, hdw, hd0]

end ExtractKeyword

/-- C2: for every string whose prefix matches `^[A-Za-z]+-\d+` (one or more
ASCII letters, a hyphen, one or more digits, with any trailing text whose
first character is not a further digit), `extract_keyword` returns exactly
that prefix, case preserved; the raw input is tried first, and only when it
has no such prefix is the path- and extension-stripped base name tried;
when neither matches the result is `none`. -/
theorem extract_keyword_spec :
    (∀ letters digits rest : List Char, letters ≠ [] →
      (∀ c ∈ letters, c.isAlpha = true) → digits ≠ [] →
      (∀ c ∈ digits, c.isDigit = true) →
      (∀ c, rest.head? = some c → c.isDigit = false) →
      extract_keyword (letters ++ '-' :: (digits ++ rest))
        = some (letters ++ '-' :: digits)) ∧
    (∀ s kw, matchIdPat s = some kw → extract_keyword s = some kw) ∧
    (∀ s, matchIdPat s = none →
      extract_keyword s = matchIdPat (splitextRoot (basename s))) ∧
    (∀ s, matchIdPat s = none → matchIdPat (splitextRoot (basename s)) = none →
      extract_keyword s = none) := by
  refine ⟨?_, ?_, ?_, ?_⟩
  · intro letters digits rest hl0 hl hd0 hd hr
    unfold extract_keyword
    rw [matchIdPat_decomp letters digits rest hl0 hl hd0 hd hr]
  · intro s kw h
    unfold extract_keyword
    rw [h]
  · intro s h
    unfold extract_keyword
    rw [h]
  · intro s h h'
    unfold extract_keyword
    rw [h, h']

/-- Witness for C2 at the spec's concrete examples. -/
theorem extract_keyword_spec_witness :
    extract_keyword (("NIMA-014.mp4").data) = some (("NIMA-014").data) ∧
    extract_keyword (("NIMA-014-extra").data) = some (("NIMA-014").data) ∧
    extract_keyword (("random_video_file.mp4").data) = none := by
  refine ⟨?_, ?_, ?_⟩
  · have h := extract_keyword_spec.1 (("NIMA").data) (("014").data)
      ((".mp4").data) (by decide) (by decide) (by decide) (by decide) (by decide)
    have e : (("NIMA").data : List Char) ++ '-' :: ((("014").data) ++ ((".mp4").data))
        = ("NIMA-014.mp4").data := by decide
    have e' : (("NIMA").data : List Char) ++ '-' :: (("014").data)
        = ("NIMA-014").data := by decide
    rw [e, e'] at h
    exact h
  · have h := extract_keyword_spec.1 (("NIMA").data) (("014").data)
      (("-extra").data) (by decide) (by decide) (by decide) (by decide) (by decide)
    have e : (("NIMA").data : List Char) ++ '-' :: ((("014").data) ++ (("-extra").data))
        = ("NIMA-014-extra").data := by decide
    have e' : (("NIMA").data : List Char) ++ '-' :: (("014").data)
        = ("NIMA-014").data := by decide
    rw [e, e'] at h
    exact h
  · exact extract_keyword_spec.2.2.2 (("random_video_file.mp4").data)
      (by decide) (by decide)

/-- The fixed site host used by the scraper for absolute URLs. -/
def siteHost : List Char := ("https://www.subtitlecat.com").data

/-- `format_subtitlecat_url` (subtitlecat.py, lines 104-112). -/
def format_subtitlecat_url (url : List Char) : List Char :=
  if startsWith url (("/").data) then siteHost ++ url
  else if !(startsWith url (("http://").data) || startsWith url (("https://").data)) then
    siteHost ++ '/' :: url
  else url

/-- The inline URL resolution inside `search_subtitlecat`
(subtitlecat.py, lines 75-81): note it tests the prefix `http`, not
`http://`/`https://`. -/
def inlineResolveUrl (href : List Char) : List Char :=
  if startsWith href (("/").data) then siteHost ++ href
  else if startsWith href (("http").data) then href
  else siteHost ++ '/' :: href

section UrlLemmas

lemma isPrefixOf_of_append (p q s : List Char)
    (h : (p ++ q).isPrefixOf s = true) : p.isPrefixOf s = true := by
  induction p generalizing s with
  | nil => simp
  | cons a p ih =>
    cases s with
    | nil => simp [List.isPrefixOf] at h
    | cons b s =>
      rw [List.cons_append, List.isPrefixOf_cons₂] at h
      rw [List.isPrefixOf_cons₂]
      simp only [Bool.and_eq_true] at h ⊢
      exact ⟨h.1, ih s h.2⟩

lemma startsWith_head_ne (u : List Char) (c d : Char) (p q : List Char)
    (hcd : c ≠ d) (h : startsWith u (c :: p) = true) :
    startsWith u (d :: q) = false := by
  cases u with
  | nil => simp [startsWith, List.isPrefixOf] at h
  | cons b t =>
    unfold startsWith at h ⊢
    rw [List.isPrefixOf_cons₂] at h ⊢
    simp only [Bool.and_eq_true, beq_iff_eq] at h
    obtain ⟨rfl, -⟩ := h
    simp only [Bool.and_eq_false_iff]
    left
    simp [Ne.symm hcd]

end UrlLemmas

/-- C6: `format_subtitlecat_url` prepends the scheme+host to inputs starting
with `/`; prepends the trailing-slash base to inputs starting with neither
`/` nor `http://` nor `https://`; and returns already-absolute inputs
unchanged. -/
theorem format_subtitlecat_url_spec (url : List Char) :
    (startsWith url (("/").data) = true →
      format_subtitlecat_url url = siteHost ++ url) ∧
    (startsWith url (("/").data) = false →
      startsWith url (("http://").data) = false →
      startsWith url (("https://").data) = false →
      format_subtitlecat_url url = siteHost ++ '/' :: url) ∧
    ((startsWith url (("http://").data) = true ∨
      startsWith url (("https://").data) = true) →
      format_subtitlecat_url url = url) := by
  refine ⟨?_, ?_, ?_⟩
  · intro h
    unfold format_subtitlecat_url
    rw [h]
    simp
  · intro h h1 h2
    unfold format_subtitlecat_url
    rw [h, h1, h2]
    simp
  · intro h
    have hs : startsWith url (("/").data) = false := by
      rcases h with h | h
      · have e : ("http://").data = 'h' :: ("ttp://").data := by decide
        rw [e] at h
        exact startsWith_head_ne url 'h' '/' _ _ (by decide) h
      · have e : ("https://").data = 'h' :: ("ttps://").data := by decide
        rw [e] at h
        exact startsWith_head_ne url 'h' '/' _ _ (by decide) h
    unfold format_subtitlecat_url
    rw [hs]
    rcases h with h | h <;> simp [h]

/-- Witness for C6 at the spec's three examples. -/
theorem format_subtitlecat_url_spec_witness :
    format_subtitlecat_url (("/subs/x.srt").data)
      = ("https://www.subtitlecat.com/subs/x.srt").data ∧
    format_subtitlecat_url (("subs/x.srt").data)
      = ("https://www.subtitlecat.com/subs/x.srt").data ∧
    format_subtitlecat_url (("https://other.example/y").data)
      = ("https://other.example/y").data := by
  refine ⟨?_, ?_, ?_⟩
  · have h := (format_subtitlecat_url_spec (("/subs/x.srt").data)).1 (by decide)
    rw [h]
    decide
  · have h := (format_subtitlecat_url_spec (("subs/x.srt").data)).2.1
      (by decide) (by decide) (by decide)
    rw [h]
    decide
  · exact (format_subtitlecat_url_spec (("https://other.example/y").data)).2.2
      (Or.inr (by decide))

/-- C7 counterexample: the inline resolution in `search_subtitlecat` and
`format_subtitlecat_url` disagree on an href that starts with `http` but
not with `http://` or `https://`. -/
theorem url_resolution_agreement_cex :
    ¬ inlineResolveUrl (("httpx").data)
        = format_subtitlecat_url (("httpx").data) := by decide

/-- C7 amended: for every href that, when it starts with `http`, also starts
with `http://` or `https://`, the inline resolution inside
`search_subtitlecat` agrees with `format_subtitlecat_url`. -/
theorem url_resolution_agreement (href : List Char)
    (h : startsWith href (("http").data) = true →
      startsWith href (("http://").data) = true ∨
      startsWith href (("https://").data) = true) :
    inlineResolveUrl href = format_subtitlecat_url href := by
  unfold inlineResolveUrl format_subtitlecat_url
  cases hs : startsWith href (("/").data) with
  | true => simp
  | false =>
    simp only [Bool.false_eq_true, if_false]
    cases hh : startsWith href (("http").data) with
    | true =>
      rcases h hh with h1 | h1 <;> simp [h1]
    | false =>
      have h1 : startsWith href (("http://").data) = false := by
        cases hc : startsWith href (("http://").data) with
        | false => rfl
        | true =>
          exfalso
          have e : ("http://").data = ("http").data ++ ("://").data := by decide
          rw [e] at hc
          unfold startsWith at hc hh
          rw [isPrefixOf_of_append _ _ _ hc] at hh
          exact absurd hh (by simp)
      have h2 : startsWith href (("https://").data) = false := by
        cases hc : startsWith href (("https://").data) with
        | false => rfl
        | true =>
          exfalso
          have e : ("https://").data = ("http").data ++ ("s://").data := by decide
          rw [e] at hc
          unfold startsWith at hc hh
          rw [isPrefixOf_of_append _ _ _ hc] at hh
          exact absurd hh (by simp)
      simp [h1, h2]

/-- Witness for the amended C7 at a concrete relative href. -/
theorem url_resolution_agreement_witness :
    inlineResolveUrl (("/subs/abc").data)
      = format_subtitlecat_url (("/subs/abc").data) :=
  url_resolution_agreement (("/subs/abc").data) (by decide)

/-- An anchor element of a search-results row, as consumed by
`search_subtitlecat`: `row.find_all('a', href=True)` yields its visible text
and its `href` attribute. -/
structure Anchor where
  text : List Char
  href : List Char
deriving DecidableEq

/-- A table row of the search-results page: its anchors (with `href`) and the
visible texts of its `td` cells, in document order. -/
structure Row where
  links : List Anchor
  cells : List (List Char)
deriving DecidableEq

/-- A parsed search result (subtitlecat.py, lines 83-87). -/
structure SearchResult where
  title : List Char
  url : List Char
  language : List Char
deriving DecidableEq

/-- Relevance test for one anchor (subtitlecat.py, line 68): the stripped
visible text contains the lowercased keyword case-insensitively, or the href
contains `/view.php?` or `/subs/`. -/
def anchorRelevant (keyword_lower : List Char) (a : Anchor) : Bool :=
  strContains (lowerStr (stripStr a.text)) keyword_lower ||
  strContains a.href (("/view.php?").data) ||
  strContains a.href (("/subs/").data)

/-- Language label of a row (subtitlecat.py, lines 70-73): the stripped text
of the second `td` cell when the row has more than one cell, else empty. -/
def rowLanguage (row : Row) : List Char :=
  match row.cells with
  | _ :: c2 :: _ => stripStr c2
  | _ => []

/-- The SearchResult built from a relevant anchor of a row
(subtitlecat.py, lines 83-87). -/
def mkSearchResult (row : Row) (a : Anchor) : SearchResult :=
  { title := stripStr a.text
  , url := inlineResolveUrl a.href
  , language := rowLanguage row }

/-- The inner `for link in links` loop of `search_subtitlecat` with its
`break` (subtitlecat.py, lines 64-88): first relevant anchor wins. -/
def scanRowLinks (keyword_lower : List Char) (row : Row) :
    List Anchor → Option SearchResult
  | [] => none
  | a :: rest =>
    if anchorRelevant keyword_lower a then some (mkSearchResult row a)
    else scanRowLinks keyword_lower row rest

/-- The outer `for row in rows` loop of `search_subtitlecat`
(subtitlecat.py, lines 59-88), including the redundant `if links:` guard. -/
def collectResults (keyword_lower : List Char) : List Row → List SearchResult
  | [] => []
  | row :: rest =>
    match (if row.links.isEmpty then none
           else scanRowLinks keyword_lower row row.links) with
    | some r => r :: collectResults keyword_lower rest
    | none => collectResults keyword_lower rest

/-- The result-page parsing step of `search_subtitlecat`: the keyword is
lowercased once (line 57) and every table row is scanned. -/
def searchParseResults (rows : List Row) (keyword : List Char) :
    List SearchResult :=
  collectResults (lowerStr keyword) rows

section ParseLemmas

lemma scanRowLinks_eq_find (keyword_lower : List Char) (row : Row)
    (links : List Anchor) :
    scanRowLinks keyword_lower row links
      = (links.find? (anchorRelevant keyword_lower)).map (mkSearchResult row) := by
  induction links with
  | nil => rfl
  | cons a rest ih =>
    cases h : anchorRelevant keyword_lower a with
    | true => simp [scanRowLinks, List.find?, h]
    | false => simp [scanRowLinks, List.find?, h, ih]

end ParseLemmas

/-- C3: the parser yields at most one SearchResult per table row, taken from
the first anchor in the row that is relevant (visible text contains the
identifier case-insensitively, or href contains `/view.php?` or `/subs/`),
with the language taken from the row's second cell when present; and on the
one-row fixture whose single anchor has text `NIMA-014 (Chinese)` and href
`/subs/abc`, `searchParseResults` with identifier `NIMA-014` returns exactly
one result whose url is `https://www.subtitlecat.com/subs/abc`. -/
theorem searchParseResults_spec :
    (∀ rows keyword, searchParseResults rows keyword
      = rows.filterMap (fun row =>
          (row.links.find? (anchorRelevant (lowerStr keyword))).map
            (mkSearchResult row))) ∧
    (∀ rows keyword, (searchParseResults rows keyword).length ≤ rows.length) ∧
    searchParseResults
        [{ links := [{ text := ("NIMA-014 (Chinese)").data
                     , href := ("/subs/abc").data }]
         , cells := [] }]
        (("NIMA-014").data)
      = [{ title := ("NIMA-014 (Chinese)").data
         , url := ("https://www.subtitlecat.com/subs/abc").data
         , language := [] }] := by
  have key : ∀ keyword_lower rows, collectResults keyword_lower rows
      = rows.filterMap (fun row =>
          (row.links.find? (anchorRelevant keyword_lower)).map
            (mkSearchResult row)) := by
    intro keyword_lower rows
    induction rows with
    | nil => rfl
    | cons row rest ih =>
      have hg : (if row.links.isEmpty then none
            else scanRowLinks keyword_lower row row.links)
          = (row.links.find? (anchorRelevant keyword_lower)).map
              (mkSearchResult row) := by
        cases hl : row.links with
        | nil => simp [scanRowLinks]
        | cons a as =>
          rw [← scanRowLinks_eq_find]
          simp
      rw [List.filterMap_cons]
      simp only [collectResults]
      rw [hg]
      cases hf : (row.links.find? (anchorRelevant keyword_lower)).map
          (mkSearchResult row) with
      | none => simpa using ih
      | some r => simpa using ih
  refine ⟨?_, ?_, ?_⟩
  · intro rows keyword
    exact key (lowerStr keyword) rows
  · intro rows keyword
    rw [searchParseResults, key]
    exact List.length_filterMap_le _ _
  · decide

/-- An anchor element of a subtitle detail page, as consumed by
`check_chinese_download_buttons`: its `id` attribute (`link.get('id', '')`),
its `href` attribute (`link.get('href', '')`), its visible text, and its
CSS classes. -/
structure DLAnchor where
  idAttr : List Char
  href : List Char
  text : List Char
  classes : List (List Char)
deriving DecidableEq

/-- The `chinese_info` dictionary of `check_chinese_download_buttons`
(subtitlecat.py, lines 162-166); `download_links` is the Python dict as an
insertion-ordered association list. -/
structure ChineseInfo where
  chinese_simplified : Bool
  chinese_traditional : Bool
  download_links : List (List Char × List Char)
deriving DecidableEq

/-- Python `k in d` on a dict. -/
def dictContains (d : List (List Char × List Char)) (k : List Char) : Bool :=
  d.any (fun p => p.1 == k)

/-- Python `d[k] = v` on a dict: replace in place when the key exists,
append otherwise. -/
def dictSet (d : List (List Char × List Char)) (k v : List Char) :
    List (List Char × List Char) :=
  if dictContains d k then d.map (fun p => if p.1 == k then (k, v) else p)
  else d ++ [(k, v)]

/-- Python `d[k]` / `d.get(k)` on a dict. -/
def dictGet? (d : List (List Char × List Char)) (k : List Char) :
    Option (List Char) :=
  (d.find? (fun p => p.1 == k)).map Prod.snd

/-- The download-anchor test (subtitlecat.py, line 173): the `id` attribute
or the visible text contains `download` case-insensitively. -/
def isDownloadAnchor (a : DLAnchor) : Bool :=
  strContains (lowerStr a.idAttr) (("download").data) ||
  strContains (lowerStr a.text) (("download").data)

/-- Variant-tag test (subtitlecat.py, lines 175 and 180): the `id` attribute
or the `href` contains the literal tag. -/
def anchorHasTag (a : DLAnchor) (tag : List Char) : Bool :=
  strContains a.idAttr tag || strContains a.href tag

/-- One iteration of the `for link in download_links` loop of
`check_chinese_download_buttons` (subtitlecat.py, lines 171-182). -/
def processDownloadLink (info : ChineseInfo) (a : DLAnchor) : ChineseInfo :=
  if isDownloadAnchor a then
    let info1 :=
      if anchorHasTag a (("zh-CN").data) then
        { info with
            chinese_simplified := true,
            download_links := dictSet info.download_links (("zh-CN").data)
              (format_subtitlecat_url a.href) }
      else info
    if anchorHasTag a (("zh-TW").data) then
      { info1 with
          chinese_traditional := true,
          download_links := dictSet info1.download_links (("zh-TW").data)
            (format_subtitlecat_url a.href) }
    else info1
  else info

/-- The initial `chinese_info` value (subtitlecat.py, lines 162-166). -/
def emptyChineseInfo : ChineseInfo :=
  { chinese_simplified := false, chinese_traditional := false,
    download_links := [] }

/-- `check_chinese_download_buttons` (subtitlecat.py, lines 158-184): fold
the loop body over the page's anchors of class `green-link`. -/
def check_chinese_download_buttons (anchors : List DLAnchor) : ChineseInfo :=
  (anchors.filter (fun a => a.classes.contains (("green-link").data))).foldl
    processDownloadLink emptyChineseInfo

section DictLemmas

lemma dictSet_fst_of_contains (d : List (List Char × List Char))
    (k v : List Char) (h : dictContains d k = true) :
    (dictSet d k v).map Prod.fst = d.map Prod.fst := by
  unfold dictSet
  rw [if_pos h, List.map_map]
  apply List.map_congr_left
  intro p hp
  simp only [Function.comp_apply]
  by_cases hpk : (p.1 == k) = true
  · rw [if_pos hpk]
    exact (beq_iff_eq.mp hpk).symm
  · rw [if_neg hpk]

lemma dictSet_fst_of_not_contains (d : List (List Char × List Char))
    (k v : List Char) (h : ¬ dictContains d k = true) :
    (dictSet d k v).map Prod.fst = d.map Prod.fst ++ [k] := by
  unfold dictSet
  rw [if_neg h, List.map_append]
  rfl

lemma dictContains_eq_any_fst (d : List (List Char × List Char))
    (k' : List Char) :
    dictContains d k' = (d.map Prod.fst).any (fun x => x == k') := by
  induction d with
  | nil => rfl
  | cons p t ih =>
    simp only [dictContains, List.any_cons, List.map_cons] at *
    rw [ih]

lemma dictContains_dictSet_self (d : List (List Char × List Char))
    (k v : List Char) : dictContains (dictSet d k v) k = true := by
  by_cases h : dictContains d k = true
  · rw [dictContains_eq_any_fst, dictSet_fst_of_contains d k v h,
      ← dictContains_eq_any_fst]
    exact h
  · rw [dictContains_eq_any_fst, dictSet_fst_of_not_contains d k v h]
    simp [List.any_append]

lemma dictContains_dictSet_ne (d : List (List Char × List Char))
    (k v k' : List Char) (hne : k' ≠ k) :
    dictContains (dictSet d k v) k' = dictContains d k' := by
  by_cases h : dictContains d k = true
  · rw [dictContains_eq_any_fst, dictSet_fst_of_contains d k v h,
      ← dictContains_eq_any_fst]
  · rw [dictContains_eq_any_fst, dictSet_fst_of_not_contains d k v h]
    have hkk : (k == k') = false := beq_eq_false_iff_ne.mpr (Ne.symm hne)
    rw [List.any_append]
    simp [hkk, ← dictContains_eq_any_fst]

lemma dictSet_keys (P : List Char → Prop) (d : List (List Char × List Char))
    (k v : List Char) (hd : ∀ p ∈ d, P p.1) (hk : P k) :
    ∀ p ∈ dictSet d k v, P p.1 := by
  intro p hp
  unfold dictSet at hp
  by_cases h : dictContains d k = true
  · rw [if_pos h] at hp
    obtain ⟨q, hq, rfl⟩ := List.mem_map.mp hp
    by_cases hqk : (q.1 == k) = true
    · simpa [hqk] using hk
    · simpa [hqk] using hd q hq
  · rw [if_neg h] at hp
    rcases List.mem_append.mp hp with hp | hp
    · exact hd p hp
    · simp only [List.mem_singleton] at hp
      subst hp
      exact hk

/-- The invariant maintained by the `check_chinese_download_buttons` loop. -/
def InfoInv (info : ChineseInfo) : Prop :=
  info.chinese_simplified = dictContains info.download_links (("zh-CN").data) ∧
  info.chinese_traditional = dictContains info.download_links (("zh-TW").data) ∧
  ∀ p ∈ info.download_links, p.1 = ("zh-CN").data ∨ p.1 = ("zh-TW").data

lemma processDownloadLink_inv (info : ChineseInfo) (a : DLAnchor)
    (h : InfoInv info) : InfoInv (processDownloadLink info a) := by
  obtain ⟨h1, h2, h3⟩ := h
  have hcn_tw : (("zh-CN").data : List Char) ≠ ("zh-TW").data := by decide
  by_cases hd : isDownloadAnchor a = true
  case neg =>
    simp only [Bool.not_eq_true] at hd
    simp only [processDownloadLink, hd, Bool.false_eq_true, if_false]
    exact ⟨h1, h2, h3⟩
  case pos =>
    by_cases hcn : anchorHasTag a (("zh-CN").data) = true
    · by_cases htw : anchorHasTag a (("zh-TW").data) = true
      · simp only [processDownloadLink, hd, hcn, htw, if_true]
        refine ⟨?_, ?_, ?_⟩
        · rw [dictContains_dictSet_ne _ _ _ _ hcn_tw, dictContains_dictSet_self]
        · rw [dictContains_dictSet_self]
        · exact dictSet_keys
            (fun x => x = (("zh-CN").data) ∨ x = (("zh-TW").data)) _ _ _
            (dictSet_keys
              (fun x => x = (("zh-CN").data) ∨ x = (("zh-TW").data)) _ _ _
              h3 (Or.inl rfl)) (Or.inr rfl)
      · simp only [Bool.not_eq_true] at htw
        simp only [processDownloadLink, hd, hcn, htw, if_true,
          Bool.false_eq_true, if_false]
        refine ⟨?_, ?_, ?_⟩
        · rw [dictContains_dictSet_self]
        · rw [dictContains_dictSet_ne _ _ _ _ (Ne.symm hcn_tw)]
          exact h2
        · exact dictSet_keys
            (fun x => x = (("zh-CN").data) ∨ x = (("zh-TW").data)) _ _ _
            h3 (Or.inl rfl)
    · simp only [Bool.not_eq_true] at hcn
      by_cases htw : anchorHasTag a (("zh-TW").data) = true
      · simp only [processDownloadLink, hd, hcn, htw, if_true,
          Bool.false_eq_true, if_false]
        refine ⟨?_, ?_, ?_⟩
        · rw [dictContains_dictSet_ne _ _ _ _ hcn_tw]
          exact h1
        · rw [dictContains_dictSet_self]
        · exact dictSet_keys
            (fun x => x = (("zh-CN").data) ∨ x = (("zh-TW").data)) _ _ _
            h3 (Or.inr rfl)
      · simp only [Bool.not_eq_true] at htw
        simp only [processDownloadLink, hd, hcn, htw, if_true,
          Bool.false_eq_true, if_false]
        exact ⟨h1, h2, h3⟩

lemma foldl_processDownloadLink_inv (l : List DLAnchor) (info : ChineseInfo)
    (h : InfoInv info) : InfoInv (l.foldl processDownloadLink info) := by
  induction l generalizing info with
  | nil => exact h
  | cons a rest ih =>
    rw [List.foldl_cons]
    exact ih _ (processDownloadLink_inv info a h)

end DictLemmas

/-- C9: in every `ChineseInfo` returned by `check_chinese_download_buttons`,
`chinese_simplified` holds iff the links dict contains key `zh-CN`,
`chinese_traditional` holds iff it contains key `zh-TW`, and the dict never
contains any other key. -/
theorem check_chinese_download_buttons_invariant (anchors : List DLAnchor) :
    (check_chinese_download_buttons anchors).chinese_simplified
      = dictContains (check_chinese_download_buttons anchors).download_links
          (("zh-CN").data) ∧
    (check_chinese_download_buttons anchors).chinese_traditional
      = dictContains (check_chinese_download_buttons anchors).download_links
          (("zh-TW").data) ∧
    ∀ p ∈ (check_chinese_download_buttons anchors).download_links,
      p.1 = ("zh-CN").data ∨ p.1 = ("zh-TW").data := by
  have h : InfoInv (check_chinese_download_buttons anchors) := by
    unfold check_chinese_download_buttons
    apply foldl_processDownloadLink_inv
    exact ⟨rfl, rfl, by intro p hp; cases hp⟩
  exact h

section NoDownloadLemmas

lemma processDownloadLink_id (info : ChineseInfo) (a : DLAnchor)
    (h : isDownloadAnchor a = false) : processDownloadLink info a = info := by
  simp only [processDownloadLink, h, Bool.false_eq_true, if_false]

lemma foldl_processDownloadLink_id (l : List DLAnchor) (info : ChineseInfo)
    (h : ∀ a ∈ l, isDownloadAnchor a = false) :
    l.foldl processDownloadLink info = info := by
  induction l generalizing info with
  | nil => rfl
  | cons a rest ih =>
    rw [List.foldl_cons, processDownloadLink_id info a
      (h a (List.mem_cons_self a rest))]
    exact ih info (fun b hb => h b (List.mem_cons_of_mem a hb))

end NoDownloadLemmas

/-- C5: an anchor counts as a download anchor exactly when its `id`
attribute or visible text contains `download` case-insensitively (anchors
failing that test leave the result unchanged); a page with no matching
anchor yields both flags false and an empty link mapping; and on the fixture
with two `green-link` download anchors whose `id`s contain `zh-CN` (href
`/dl/a`) and `zh-TW` (href `/dl/b`), both flags are true and both links are
resolved to absolute URLs. -/
theorem check_chinese_download_buttons_spec :
    (∀ a : DLAnchor, isDownloadAnchor a
      = (strContains (lowerStr a.idAttr) (("download").data) ||
         strContains (lowerStr a.text) (("download").data))) ∧
    (∀ info a, isDownloadAnchor a = false →
      processDownloadLink info a = info) ∧
    (∀ anchors : List DLAnchor,
      (∀ a ∈ anchors, isDownloadAnchor a = false) →
      check_chinese_download_buttons anchors = emptyChineseInfo) ∧
    check_chinese_download_buttons
        [{ idAttr := ("download-zh-CN").data, href := ("/dl/a").data
         , text := [], classes := [("green-link").data] }
        , { idAttr := ("download-zh-TW").data, href := ("/dl/b").data
          , text := [], classes := [("green-link").data] }]
      = { chinese_simplified := true
        , chinese_traditional := true
        , download_links :=
            [((("zh-CN").data), (("https://www.subtitlecat.com/dl/a").data))
            , ((("zh-TW").data), (("https://www.subtitlecat.com/dl/b").data))] } := by
  refine ⟨fun a => rfl, processDownloadLink_id, ?_, by decide⟩
  intro anchors h
  unfold check_chinese_download_buttons
  apply foldl_processDownloadLink_id
  intro a ha
  exact h a (List.mem_of_mem_filter ha)

/-- Witness for C5: a page whose only anchor is not a download anchor
yields the empty result. -/
theorem check_chinese_download_buttons_spec_witness :
    check_chinese_download_buttons
        [{ idAttr := ("other").data, href := ("/x").data
         , text := ("click").data, classes := [("green-link").data] }]
      = emptyChineseInfo ∧
    processDownloadLink emptyChineseInfo
        { idAttr := ("other").data, href := ("/x").data
        , text := ("click").data, classes := [("green-link").data] }
      = emptyChineseInfo := by
  constructor
  · exact check_chinese_download_buttons_spec.2.2.1 _ (by decide)
  · exact check_chinese_download_buttons_spec.2.1 _ _ (by decide)

/-- POSIX `os.path.join` for two components, as used by the scraper. -/
def osJoin (folder name : List Char) : List Char :=
  if startsWith name (("/").data) then name
  else if folder.isEmpty || (folder.getLast? == some '/') then folder ++ name
  else folder ++ '/' :: name

/-- `download_chinese_subtitle` (subtitle_scraper.py, lines 179-200): pick
the `zh-CN` link when present, else the `zh-TW` link, else no target; the
destination joins the download folder with `<base>.<tag>.srt`. -/
def download_chinese_subtitle (chinese_info : ChineseInfo)
    (filename_for_srt : List Char) (download_folder : List Char) :
    Option (List Char) × Option (List Char) × Option (List Char) :=
  let download_links := chinese_info.download_links
  match dictGet? download_links (("zh-CN").data) with
  | some u =>
    (some u, some (("Chinese Simplified (zh-CN)").data),
      some (osJoin download_folder (filename_for_srt ++ ((".zh-CN.srt").data))))
  | none =>
    match dictGet? download_links (("zh-TW").data) with
    | some u =>
      (some u, some (("Chinese Traditional (zh-TW)").data),
        some (osJoin download_folder (filename_for_srt ++ ((".zh-TW.srt").data))))
    | none => (none, none, none)

/-- C4: `download_chinese_subtitle` chooses the `zh-CN` link with label
`Chinese Simplified (zh-CN)` and destination
`join(folder, base + ".zh-CN.srt")` whenever the mapping holds `zh-CN`
(regardless of whether `zh-TW` is also present); with only `zh-TW` it
chooses that link with label `Chinese Traditional (zh-TW)` and suffix
`.zh-TW.srt`; with neither it returns the triple of `none`s. -/
theorem download_chinese_subtitle_spec (info : ChineseInfo)
    (base folder : List Char) :
    (∀ u, dictGet? info.download_links (("zh-CN").data) = some u →
      download_chinese_subtitle info base folder
        = (some u, some (("Chinese Simplified (zh-CN)").data),
           some (osJoin folder (base ++ ((".zh-CN.srt").data))))) ∧
    (dictGet? info.download_links (("zh-CN").data) = none →
      ∀ u, dictGet? info.download_links (("zh-TW").data) = some u →
      download_chinese_subtitle info base folder
        = (some u, some (("Chinese Traditional (zh-TW)").data),
           some (osJoin folder (base ++ ((".zh-TW.srt").data))))) ∧
    (dictGet? info.download_links (("zh-CN").data) = none →
      dictGet? info.download_links (("zh-TW").data) = none →
      download_chinese_subtitle info base folder = (none, none, none)) := by
  refine ⟨?_, ?_, ?_⟩
  · intro u h
    simp only [download_chinese_subtitle]
    rw [h]
  · intro h u h'
    simp only [download_chinese_subtitle]
    rw [h, h']
  · intro h h'
    simp only [download_chinese_subtitle]
    rw [h, h']

/-- Witness for C4: both links present picks `zh-CN`; only `zh-TW` picks
`zh-TW`; neither yields no target. -/
theorem download_chinese_subtitle_spec_witness :
    download_chinese_subtitle
        { chinese_simplified := true, chinese_traditional := true
        , download_links := [((("zh-CN").data), (("u1").data))
            , ((("zh-TW").data), (("u2").data))] }
        (("NIMA-014").data) ((".").data)
      = (some (("u1").data), some (("Chinese Simplified (zh-CN)").data),
         some (("./NIMA-014.zh-CN.srt").data)) ∧
    download_chinese_subtitle
        { chinese_simplified := false, chinese_traditional := true
        , download_links := [((("zh-TW").data), (("u2").data))] }
        (("NIMA-014").data) ((".").data)
      = (some (("u2").data), some (("Chinese Traditional (zh-TW)").data),
         some (("./NIMA-014.zh-TW.srt").data)) ∧
    download_chinese_subtitle
        { chinese_simplified := false, chinese_traditional := false
        , download_links := [] }
        (("NIMA-014").data) ((".").data)
      = (none, none, none) := by
  refine ⟨?_, ?_, ?_⟩
  · have h := (download_chinese_subtitle_spec
      { chinese_simplified := true, chinese_traditional := true
      , download_links := [((("zh-CN").data), (("u1").data))
          , ((("zh-TW").data), (("u2").data))] }
      (("NIMA-014").data) ((".").data)).1 (("u1").data) (by decide)
    rw [h]
    decide
  · have h := (download_chinese_subtitle_spec
      { chinese_simplified := false, chinese_traditional := true
      , download_links := [((("zh-TW").data), (("u2").data))] }
      (("NIMA-014").data) ((".").data)).2.1 (by decide) (("u2").data) (by decide)
    rw [h]
    decide
  · exact (download_chinese_subtitle_spec
      { chinese_simplified := false, chinese_traditional := false
      , download_links := [] }
      (("NIMA-014").data) ((".").data)).2.2 (by decide) (by decide)

/-- UTF-8 bytes of a character (what Python encodes before percent-escaping
in `urllib.parse.quote`). -/
def utf8Bytes (c : Char) : List Nat :=
  let n := c.toNat
  if n < 128 then [n]
  else if n < 2048 then [192 + n / 64, 128 + n % 64]
  else if n < 65536 then [224 + n / 4096, 128 + (n / 64) % 64, 128 + n % 64]
  else [240 + n / 262144, 128 + (n / 4096) % 64, 128 + (n / 64) % 64,
    128 + n % 64]

/-- Uppercase hexadecimal digit, as produced by `urllib.parse.quote`. -/
def hexDigitChar (n : Nat) : Char :=
  if n < 10 then Char.ofNat (48 + n) else Char.ofNat (55 + n)

/-- A byte `urllib.parse.quote` leaves unescaped: ASCII letters, digits,
`_.-~`, and the default safe character `/`. -/
def quoteSafeByte (b : Nat) : Bool :=
  (65 ≤ b && b ≤ 90) || (97 ≤ b && b ≤ 122) || (48 ≤ b && b ≤ 57) ||
  b == 95 || b == 46 || b == 45 || b == 126 || b == 47

/-- `urllib.parse.quote` with its default safe set. -/
def urlQuote (s : List Char) : List Char :=
  s.foldr (fun c acc =>
    (utf8Bytes c).foldr (fun b acc2 =>
      if quoteSafeByte b then Char.ofNat b :: acc2
      else '%' :: hexDigitChar (b / 16) :: hexDigitChar (b % 16) :: acc2)
      acc) []

/-- The search URL built by `search_subtitlecat` (subtitlecat.py, line 31). -/
def searchUrl (keyword : List Char) : List Char :=
  ("https://www.subtitlecat.com/index.php?search=").data ++ urlQuote keyword

instance instDecEqExcept {e a : Type} [DecidableEq e] [DecidableEq a] :
    DecidableEq (Except e a) := fun x y =>
  match x, y with
  | .error u, .error v => decidable_of_iff (u = v) (by simp)
  | .error _, .ok _ => isFalse (fun h => Except.noConfusion h)
  | .ok _, .error _ => isFalse (fun h => Except.noConfusion h)
  | .ok u, .ok v => decidable_of_iff (u = v) (by simp)

/-- A search-results page as produced by the lenient HTML parser: the
optional `<title>` string and the table rows. -/
structure SearchDoc where
  title : Option (List Char)
  rows : List Row
deriving DecidableEq

/-- A response to the search GET: HTTP status, the URL the response ended
up at (ignored by the code), and the parser's view of the body (`error`
models a parser exception). -/
structure SearchResponse where
  status_code : Nat
  finalUrl : List Char
  doc : Except (List Char) SearchDoc
deriving DecidableEq

/-- The dictionary returned by a successful `search_subtitlecat`
(subtitlecat.py, lines 90-95). -/
structure SearchOutcome where
  page_title : List Char
  results : List SearchResult
  url : List Char
  status_code : Nat
deriving DecidableEq

/-- `search_subtitlecat` (subtitlecat.py, lines 20-102), with the network
made explicit: `keyword = none` models a non-string argument; `net` is what
`requests.get` yields (`error` = RequestException, and a 4xx/5xx status
makes `raise_for_status` raise, landing in the same handler).  The second
component counts GET requests issued. -/
def search_subtitlecat (keyword : Option (List Char))
    (net : Except (List Char) SearchResponse) :
    Option SearchOutcome × Nat :=
  match keyword with
  | none => (none, 0)
  | some kw =>
    if kw.isEmpty then (none, 0)
    else
      match net with
      | .error _ => (none, 1)
      | .ok resp =>
        if 400 ≤ resp.status_code ∧ resp.status_code < 600 then (none, 1)
        else
          match resp.doc with
          | .error _ => (none, 1)
          | .ok doc =>
            (some { page_title := doc.title.getD (("No title found").data)
                  , results := searchParseResults doc.rows kw
                  , url := searchUrl kw
                  , status_code := resp.status_code }, 1)

/-- A subtitle detail page as produced by the lenient HTML parser. -/
structure DetailDoc where
  title : Option (List Char)
  textContent : List Char
  anchors : List DLAnchor
deriving DecidableEq

/-- A response to the detail-page GET. -/
structure DetailResponse where
  status_code : Nat
  doc : Except (List Char) DetailDoc
deriving DecidableEq

/-- The dictionary returned by `get_subtitle_page_content`: either the
error-tagged form or the success form (subtitlecat.py, lines 145-156). -/
inductive PageContent
  | error (msg : List Char)
  | success (url page_title content : List Char)
      (chinese_downloads : ChineseInfo)
deriving DecidableEq

/-- `get_subtitle_page_content` (subtitlecat.py, lines 114-156), network
made explicit as for `search_subtitlecat`; counts GET requests issued. -/
def get_subtitle_page_content (url : Option (List Char))
    (net : Except (List Char) DetailResponse) : PageContent × Nat :=
  match url with
  | none => (.error (("Invalid URL provided").data), 0)
  | some u =>
    if u.isEmpty then (.error (("Invalid URL provided").data), 0)
    else
      match net with
      | .error e => (.error ((("Request error: ").data) ++ e), 1)
      | .ok resp =>
        if 400 ≤ resp.status_code ∧ resp.status_code < 600 then
          (.error (("Request error: HTTPError").data), 1)
        else
          match resp.doc with
          | .error e => (.error ((("Parsing error: ").data) ++ e), 1)
          | .ok doc =>
            (.success (format_subtitlecat_url u)
              (doc.title.getD (("No title found").data)) doc.textContent
              (check_chinese_download_buttons doc.anchors), 1)

/-- C10: an empty or non-string keyword makes `search_subtitlecat` return
`None` with zero GET requests, whatever the network would answer; likewise
an empty or non-string URL makes `get_subtitle_page_content` return the
error-tagged outcome with zero GET requests. -/
theorem input_validation_spec :
    (∀ net, search_subtitlecat none net = (none, 0)) ∧
    (∀ net, search_subtitlecat (some []) net = (none, 0)) ∧
    (∀ net, get_subtitle_page_content none net
      = (.error (("Invalid URL provided").data), 0)) ∧
    (∀ net, get_subtitle_page_content (some []) net
      = (.error (("Invalid URL provided").data), 0)) :=
  ⟨fun _ => rfl, fun _ => rfl, fun _ => rfl, fun _ => rfl⟩

/-- C8 counterexample: an informational status such as 100 is neither 2xx
nor 3xx, yet `requests.raise_for_status` does not raise for it, so
`search_subtitlecat` returns a success outcome rather than `None`. -/
theorem search_error_handling_cex :
    ¬ (search_subtitlecat (some (("NIMA-014").data))
        (.ok { status_code := 100, finalUrl := []
             , doc := .ok { title := some (("T").data), rows := [] } })).1
      = none := by decide

/-- C8 amended: `search_subtitlecat` never propagates an exception — a
request failure, a 4xx/5xx status (the statuses `raise_for_status` raises
for), or a parse failure each yield `None`; on success it returns the page
title, the originally requested search URL, the HTTP status code, and the
parsed candidate list. -/
theorem search_error_handling (kw : List Char)
    (net : Except (List Char) SearchResponse) :
    (∀ e, net = .error e → (search_subtitlecat (some kw) net).1 = none) ∧
    (∀ resp, net = .ok resp → 400 ≤ resp.status_code →
      resp.status_code < 600 → (search_subtitlecat (some kw) net).1 = none) ∧
    (∀ resp e, net = .ok resp → resp.doc = .error e →
      (search_subtitlecat (some kw) net).1 = none) ∧
    (∀ resp doc, kw ≠ [] → net = .ok resp →
      ¬ (400 ≤ resp.status_code ∧ resp.status_code < 600) →
      resp.doc = .ok doc →
      search_subtitlecat (some kw) net
        = (some { page_title := doc.title.getD (("No title found").data)
                , results := searchParseResults doc.rows kw
                , url := searchUrl kw
                , status_code := resp.status_code }, 1)) := by
  refine ⟨?_, ?_, ?_, ?_⟩
  · rintro e rfl
    cases h : kw.isEmpty <;> simp [search_subtitlecat, h]
  · rintro resp rfl h1 h2
    cases h : kw.isEmpty <;>
      simp [search_subtitlecat, h, if_pos (And.intro h1 h2)]
  · rintro resp e rfl hd
    cases h : kw.isEmpty with
    | true => simp [search_subtitlecat, h]
    | false =>
      by_cases hs : 400 ≤ resp.status_code ∧ resp.status_code < 600
      · simp [search_subtitlecat, h, if_pos hs]
      · simp [search_subtitlecat, h, if_neg hs, hd]
  · rintro resp doc hk rfl hs hd
    have h : kw.isEmpty = false := by
      cases h : kw.isEmpty with
      | true =>
        exact absurd (List.isEmpty_eq_true.mp h) hk
      | false => rfl
    simp [search_subtitlecat, h, if_neg hs, hd]

/-- Witness for the amended C8: a request failure yields `None`; a 404
yields `None`; a parse failure yields `None`; a 200 with a parsed document
yields the full outcome. -/
theorem search_error_handling_witness :
    (search_subtitlecat (some (("NIMA-014").data))
      (.error (("boom").data))).1 = none ∧
    (search_subtitlecat (some (("NIMA-014").data))
      (.ok { status_code := 404, finalUrl := [], doc := .error [] })).1
      = none ∧
    (search_subtitlecat (some (("NIMA-014").data))
      (.ok { status_code := 200, finalUrl := []
           , doc := .error (("bad html").data) })).1 = none ∧
    search_subtitlecat (some (("NIMA-014").data))
      (.ok { status_code := 200, finalUrl := []
           , doc := .ok { title := some (("T").data), rows := [] } })
      = (some { page_title := ("T").data, results := []
              , url := ("https://www.subtitlecat.com/index.php?search=NIMA-014").data
              , status_code := 200 }, 1) := by
  refine ⟨?_, ?_, ?_, ?_⟩
  · exact (search_error_handling (("NIMA-014").data) _).1 (("boom").data) rfl
  · exact (search_error_handling (("NIMA-014").data) _).2.1
      { status_code := 404, finalUrl := [], doc := .error [] } rfl
      (by decide) (by decide)
  · exact (search_error_handling (("NIMA-014").data) _).2.2.1 _
      (("bad html").data) rfl rfl
  · have h := (search_error_handling (("NIMA-014").data) _).2.2.2
      { status_code := 200, finalUrl := []
      , doc := .ok { title := some (("T").data), rows := [] } }
      { title := some (("T").data), rows := [] } (by decide) rfl
      (by decide) rfl
    rw [h]
    decide

/-- The filesystem as the list of existing paths (the model does not
distinguish files from directories; the driver only probes paths that are
files, plus the output folder before creating it). -/
abbrev FileSys := List (List Char)

/-- `is_subtitle_exists` (subtitle_scraper.py, lines 76-94): probe the
three canonical keyword-based filenames in the download folder. -/
def is_subtitle_exists (keyword download_folder : List Char) (fs : FileSys) :
    Bool × Option (List Char) :=
  let subtitle_files := [keyword ++ ((".zh-CN.srt").data),
    keyword ++ ((".zh-TW.srt").data), keyword ++ ((".srt").data)]
  match subtitle_files.find?
      (fun f => fs.contains (osJoin download_folder f)) with
  | some f => (true, some (osJoin download_folder f))
  | none => (false, none)

/-- The video extension set of `is_video_file`
(subtitle_scraper.py, line 53). -/
def videoExtensions : List (List Char) :=
  [((".mp4").data), ((".avi").data), ((".mkv").data), ((".mov").data),
   ((".wmv").data), ((".flv").data), ((".webm").data), ((".m4v").data),
   ((".ts").data)]

/-- `is_video_file` (subtitle_scraper.py, lines 49-55). -/
def is_video_file (filename : List Char) : Bool :=
  videoExtensions.contains (lowerStr (splitextExt filename))

/-- `is_hidden_file` (subtitle_scraper.py, lines 57-74): name begins with a
dot; the Windows hidden-attribute branch returns False on POSIX and is not
modelled. -/
def is_hidden_file (filepath : List Char) : Bool :=
  startsWith (basename filepath) ((".").data)

/-- POSIX `os.path.dirname`. -/
def dirname (p : List Char) : List Char :=
  if ('/' : Char) ∈ p then
    let head := (p.reverse.dropWhile (fun c => !(c = '/' : Bool))).reverse
    if head.all (fun c => (c = '/' : Bool)) then head
    else (head.reverse.dropWhile (fun c => (c = '/' : Bool))).reverse
  else []

/-- The remote site, as the responses it would give to each GET the driver
can issue. -/
structure NetOracle where
  searchResp : List Char → Except (List Char) SearchResponse
  detailResp : List Char → Except (List Char) DetailResponse
  fileResp : List Char → Except (List Char) (List Char)

/-- `download_subtitle_file` (subtitle_scraper.py, lines 202-231): create
the destination folder when missing (`os.makedirs` is modelled as
succeeding for a nonempty folder name and raising for an empty one; a write
failure is not modelled), then GET and write.  Returns the new filesystem,
the number of GETs issued, and the success flag. -/
def download_subtitle_file (net : NetOracle) (url full_path : List Char)
    (fs : FileSys) : FileSys × Nat × Bool :=
  let folder := dirname full_path
  if fs.contains folder then
    match net.fileResp url with
    | .ok _ => (full_path :: fs, 1, true)
    | .error _ => (fs, 1, false)
  else if folder.isEmpty then (fs, 0, false)
  else
    match net.fileResp url with
    | .ok _ => (full_path :: folder :: fs, 1, true)
    | .error _ => (folder :: fs, 1, false)

/-- The `for item in result['results']` loop of `process_video_file`
(subtitle_scraper.py, lines 129-172): fetch each candidate's page, and when
it reports Chinese download links, select and download one.  Returns the
new filesystem and the number of GETs issued. -/
def processResults (net : NetOracle)
    (filename_for_srt download_folder : List Char) :
    List SearchResult → FileSys → FileSys × Nat
  | [], fs => (fs, 0)
  | item :: rest, fs =>
    let pc := get_subtitle_page_content (some item.url)
      (net.detailResp item.url)
    match pc.1 with
    | .error _ =>
      let r := processResults net filename_for_srt download_folder rest fs
      (r.1, pc.2 + r.2)
    | .success _ _ _ chinese_info =>
      if chinese_info.download_links.isEmpty then
        let r := processResults net filename_for_srt download_folder rest fs
        (r.1, pc.2 + r.2)
      else
        match download_chinese_subtitle chinese_info filename_for_srt
            download_folder with
        | (some url, _, some full_path) =>
          if url.isEmpty then
            let r := processResults net filename_for_srt download_folder rest fs
            (r.1, pc.2 + r.2)
          else
            let d := download_subtitle_file net url full_path fs
            let r := processResults net filename_for_srt download_folder rest d.1
            (r.1, pc.2 + d.2.1 + r.2)
        | _ =>
          let r := processResults net filename_for_srt download_folder rest fs
          (r.1, pc.2 + r.2)

/-- `process_video_file` (subtitle_scraper.py, lines 96-177): extract the
keyword, skip when a canonical subtitle file already exists, otherwise
search and walk the results.  Returns the new filesystem, the number of
GETs issued, and the Python return value. -/
def process_video_file (net : NetOracle)
    (video_path download_folder : List Char) (fs : FileSys) :
    FileSys × Nat × Bool :=
  match extract_keyword video_path with
  | none => (fs, 0, false)
  | some keyword =>
    if (is_subtitle_exists keyword download_folder fs).1 then (fs, 0, true)
    else
      let filename_for_srt := splitextRoot (basename video_path)
      let s := search_subtitlecat (some keyword) (net.searchResp keyword)
      match s.1 with
      | none => (fs, s.2, true)
      | some result =>
        let r := processResults net filename_for_srt download_folder
          result.results fs
        (r.1, s.2 + r.2, true)

/-- The folder mode of `main` (subtitle_scraper.py, lines 253-291): walk
the directory listing, skip hidden entries, non-files, non-videos, files
without an extractable keyword, and files whose canonical subtitle already
exists; process the rest.  Returns the new filesystem and the total number
of GETs issued. -/
def runFolder (net : NetOracle) (input_dir download_folder : List Char) :
    List (List Char) → FileSys → FileSys × Nat
  | [], fs => (fs, 0)
  | filename :: rest, fs =>
    let file_path := osJoin input_dir filename
    if is_hidden_file file_path then
      runFolder net input_dir download_folder rest fs
    else if fs.contains file_path && is_video_file filename then
      match extract_keyword file_path with
      | none => runFolder net input_dir download_folder rest fs
      | some keyword =>
        if (is_subtitle_exists keyword download_folder fs).1 then
          runFolder net input_dir download_folder rest fs
        else
          let p := process_video_file net file_path download_folder fs
          let r := runFolder net input_dir download_folder rest p.1
          (r.1, p.2.1 + r.2)
    else runFolder net input_dir download_folder rest fs

/-- A concrete remote site used for the batch-driver scenarios: the search
returns one candidate row pointing at `/subs/abc`, whose detail page has a
`green-link` Simplified-Chinese download button, and every file GET
succeeds. -/
def cexSearchDoc : SearchDoc where
  title := some (("Search Results").data)
  rows := [{ links := [{ text := ("NIMA-014").data
                       , href := ("/subs/abc").data }]
           , cells := [] }]

/-- The detail page of the concrete remote site. -/
def cexDetailDoc : DetailDoc where
  title := some (("NIMA-014").data)
  textContent := []
  anchors := [{ idAttr := ("download-zh-CN").data
              , href := ("/dl/a").data
              , text := []
              , classes := [("green-link").data] }]

/-- The concrete network oracle for the batch-driver scenarios. -/
def cexNet : NetOracle where
  searchResp := fun _ => .ok
    { status_code := 200, finalUrl := [], doc := .ok cexSearchDoc }
  detailResp := fun _ => .ok
    { status_code := 200, doc := .ok cexDetailDoc }
  fileResp := fun _ => .ok (("subtitle body").data)

/-- C1 counterexample: on the folder containing `NIMA-014-extra.mp4`, the
first run creates `dir/NIMA-014-extra.zh-CN.srt` (named after the video's
full base name), yet the second run on the same folder and output folder
performs three network calls, not zero — the existence check probes
`NIMA-014.*` names built from the extracted keyword, which do not exist. -/
theorem batch_driver_idempotence_cex :
    (("dir/NIMA-014-extra.zh-CN.srt").data)
        ∈ (runFolder cexNet (("dir").data) (("dir").data)
            [("NIMA-014-extra.mp4").data]
            [("dir").data, ("dir/NIMA-014-extra.mp4").data]).1 ∧
    ¬ (runFolder cexNet (("dir").data) (("dir").data)
        [("NIMA-014-extra.mp4").data, ("NIMA-014-extra.zh-CN.srt").data]
        (runFolder cexNet (("dir").data) (("dir").data)
          [("NIMA-014-extra.mp4").data]
          [("dir").data, ("dir/NIMA-014-extra.mp4").data]).1).2 = 0 := by
  decide

/-- C1 amended: the existence check on the three canonical keyword-based
filenames short-circuits the remote pipeline — whenever one of
`keyword + ".zh-CN.srt"`, `keyword + ".zh-TW.srt"`, `keyword + ".srt"`
exists in the output folder, both `process_video_file` and the folder
driver perform zero network calls for that item and leave the filesystem
unchanged.  Because the first run writes the subtitle under the video's
full extension-stripped base name, the second run is network-free exactly
for items whose base name equals the extracted keyword (see the witness),
not for every item (see the counterexample). -/
theorem batch_driver_idempotence (net : NetOracle)
    (input_dir download_folder filename : List Char) (fs : FileSys)
    (keyword : List Char)
    (hk : extract_keyword (osJoin input_dir filename) = some keyword)
    (hex : (is_subtitle_exists keyword download_folder fs).1 = true) :
    process_video_file net (osJoin input_dir filename) download_folder fs
      = (fs, 0, true) ∧
    runFolder net input_dir download_folder [filename] fs = (fs, 0) := by
  have hp : process_video_file net (osJoin input_dir filename)
      download_folder fs = (fs, 0, true) := by
    simp only [process_video_file, hk]
    rw [if_pos hex]
  refine ⟨hp, ?_⟩
  by_cases h1 : is_hidden_file (osJoin input_dir filename) = true
  · simp [runFolder, h1]
  · simp only [Bool.not_eq_true] at h1
    by_cases h2 : (fs.contains (osJoin input_dir filename)
        && is_video_file filename) = true
    · simp [runFolder, h1, h2, hk, hex]
    · simp only [Bool.not_eq_true] at h2
      simp [runFolder, h1, h2, hk, hex]

/-- Witness for the amended C1: for `NIMA-014.mp4` (base name equal to the
keyword) the second run of the folder driver performs zero network calls
and leaves the filesystem produced by the first run unchanged. -/
theorem batch_driver_idempotence_witness :
    runFolder cexNet (("dir").data) (("dir").data) [("NIMA-014.mp4").data]
        (runFolder cexNet (("dir").data) (("dir").data)
          [("NIMA-014.mp4").data]
          [("dir").data, ("dir/NIMA-014.mp4").data]).1
      = ((runFolder cexNet (("dir").data) (("dir").data)
          [("NIMA-014.mp4").data]
          [("dir").data, ("dir/NIMA-014.mp4").data]).1, 0) :=
  (batch_driver_idempotence cexNet (("dir").data) (("dir").data)
    (("NIMA-014.mp4").data)
    (runFolder cexNet (("dir").data) (("dir").data) [("NIMA-014.mp4").data]
      [("dir").data, ("dir/NIMA-014.mp4").data]).1
    (("NIMA-014").data) (by decide) (by decide)).2
